import Mathlib

/-!
Verification of the deepfake-detection inference pipeline of this repository.

The backend's Python modules (aggregator, stabilization buffer, model cache)
are documented in `src/backend/README.md`; the model-cache function
`get_detector` is quoted there verbatim.  The frontend request layer lives in
`src/frontend/src/services/api.js`.  Components whose source is not present in
the repository snapshot are modelled from the specification, as marked in the
doc comments below.
-/

namespace FYP

/-- Classification label: exactly two outcomes, real or fake. -/
inductive Label where
  | real : Label
  | fake : Label
deriving DecidableEq, Repr

/-- The opposite label. -/
def Label.other : Label → Label
  | .real => .fake
  | .fake => .real

/-- Whether a label counts as fake, for the `is_fake` field of a verdict. -/
def Label.isFake : Label → Bool
  | .real => false
  | .fake => true

/-- Per-frame classification result: a label and a probability in [0,1]. -/
structure ClassificationResult where
  label : Label
  prob : ℚ
deriving DecidableEq, Repr

/-- Number of frames carrying label `l`. -/
def countLabel (l : Label) (rs : List ClassificationResult) : ℕ :=
  (rs.filter (fun r => r.label = l)).length

/-- Sum of the probabilities of the frames carrying label `l`. -/
def sumProb (l : Label) (rs : List ClassificationResult) : ℚ :=
  ((rs.filter (fun r => r.label = l)).map (fun r => r.prob)).sum

/-- Average probability of the frames carrying label `l` (0 when none do). -/
def avgProb (l : Label) (rs : List ClassificationResult) : ℚ :=
  if countLabel l rs = 0 then 0 else sumProb l rs / (countLabel l rs : ℚ)

/-- Modelled from the spec: the Aggregator's majority vote with tie-break
(`ml_model.py` is not in the snapshot; §4.6 of the spec and the
"majority voting" step of `src/backend/README.md`).  The label with the
strictly larger frame count wins; on equal counts the label with the strictly
higher average probability wins; on equal counts and equal averages the result
is `fake`. -/
def winningLabel (rs : List ClassificationResult) : Label :=
  if countLabel .real rs < countLabel .fake rs then .fake
  else if countLabel .fake rs < countLabel .real rs then .real
  else if avgProb .real rs < avgProb .fake rs then .fake
  else if avgProb .fake rs < avgProb .real rs then .real
  else .fake

/-- Verdict aggregated over one video: winning label, confidence scaled to
[0,100], and frame counts. -/
structure AggregatedVerdict where
  label : Label
  confidence : ℚ
  frameCount : ℕ
  fakeCount : ℕ
  realCount : ℕ
deriving DecidableEq, Repr

/-- Modelled from the spec: the Aggregator (§4.6).  Confidence is the average
probability, scaled to [0,100], of only the frames that carry the winning
label. -/
def aggregate (rs : List ClassificationResult) : AggregatedVerdict :=
  ⟨winningLabel rs, 100 * avgProb (winningLabel rs) rs, rs.length,
    countLabel .fake rs, countLabel .real rs⟩

/-- The worked example of the spec: frame results fake(0.9), fake(0.8),
real(0.6). -/
def exampleFrames : List ClassificationResult :=
  [⟨.fake, 9/10⟩, ⟨.fake, 8/10⟩, ⟨.real, 6/10⟩]

/-- The tie-break example of the spec: fake(0.7), real(0.7). -/
def tieFrames : List ClassificationResult :=
  [⟨.fake, 7/10⟩, ⟨.real, 7/10⟩]

/-- Rolling buffer of recent camera-frame results, fixed capacity, one per
camera session. -/
structure StabilizationWindow where
  capacity : ℕ
  buf : List ClassificationResult
deriving DecidableEq, Repr

/-- Smoothed verdict returned by a push into a stabilization window. -/
structure StabilizedVerdict where
  label : Label
  confidence : ℚ
deriving DecidableEq, Repr

/-- Modelled from the spec: the Stabilization Buffer push (§4.7; the camera
stabilization module is not in the snapshot, `src/backend/README.md` only
names the feature).  Appends the result, evicting the oldest entry first when
the buffer is full, and returns the majority vote over the current window with
the window's average probability for the winning label as confidence. -/
def StabilizationWindow.push (w : StabilizationWindow) (r : ClassificationResult) :
    StabilizationWindow × StabilizedVerdict :=
  let buf2 := (if w.capacity ≤ w.buf.length then w.buf.drop 1 else w.buf) ++ [r]
  (⟨w.capacity, buf2⟩, ⟨winningLabel buf2, 100 * avgProb (winningLabel buf2) buf2⟩)

/-- Push a whole sequence of results, in order, keeping the final window. -/
def pushAll (w : StabilizationWindow) (rs : List ClassificationResult) :
    StabilizationWindow :=
  rs.foldl (fun w r => (w.push r).1) w

/-- The most recent `n` elements of a list. -/
def lastN (n : ℕ) (l : List α) : List α := l.drop (l.length - n)

/-- A six-frame camera sequence: over all six frames the labels tie 3–3 (and
the tie-break would say fake), but over the five most recent frames real wins
3–2. -/
def camFrames : List ClassificationResult :=
  [⟨.fake, 9/10⟩, ⟨.real, 6/10⟩, ⟨.real, 6/10⟩, ⟨.real, 6/10⟩, ⟨.fake, 8/10⟩,
    ⟨.fake, 7/10⟩]

/-- Error taxonomy of the pipeline (spec §7). -/
inductive DetectError where
  | UnknownModel : DetectError
  | ModelLoadError : DetectError
  | UnsupportedMedia : DetectError
  | EmptyMedia : DetectError
  | InferenceError : DetectError
deriving DecidableEq, Repr

/-- Lookup in an association list of loaded models keyed by model key
(Python dict lookup of `_detector_cache`; later insertions shadow). -/
def findKey : List (String × ℕ) → String → Option ℕ
  | [], _ => none
  | (k, v) :: es, a => if a = k then some v else findKey es a

/-- State of the model registry: the `_detector_cache` mapping plus a counter
of loads performed so far.  Each load produces a fresh handle (the counter
value), so distinct loads are distinguishable. -/
structure RegistryState where
  cache : List (String × ℕ)
  loadCount : ℕ
deriving DecidableEq, Repr

/-- Modelled from the spec: `get_detector` as quoted in
`src/backend/README.md` (`ml_model.py` is not in the snapshot):
if `model_key` is not in `_detector_cache`, construct a detector and store it;
return the cached detector.  Loading is modelled by minting the fresh handle
`loadCount`. -/
def get_detector (key : String) (s : RegistryState) : ℕ × RegistryState :=
  match findKey s.cache key with
  | some m => (m, s)
  | none => (s.loadCount, ⟨(key, s.loadCount) :: s.cache, s.loadCount + 1⟩)

/-- Run a sequence of `get_detector` calls, in order, keeping the state. -/
def runCalls (s : RegistryState) (keys : List String) : RegistryState :=
  keys.foldl (fun s k => (get_detector k s).2) s

/-- Modelled from the spec: `get_detector` when the load itself can fail
(§4.2, §7 of the spec; the README's snippet assigns
`_detector_cache[model_key] = DeepfakeDetector(model_key)`, so a constructor
failure propagates before the assignment happens).  `ok` says whether this
call's load attempt would succeed. -/
def get_detector_f (key : String) (ok : Bool) (s : RegistryState) :
    Except DetectError ℕ × RegistryState :=
  match findKey s.cache key with
  | some m => (.ok m, s)
  | none =>
    if ok then (.ok s.loadCount, ⟨(key, s.loadCount) :: s.cache, s.loadCount + 1⟩)
    else (.error .ModelLoadError, s)

/-- Program counter of one thread executing the body of `get_detector`:
not yet started; performed the `model_key not in _detector_cache` test
(recording whether the key was absent); or finished with a handle. -/
inductive ThreadPC where
  | ready : ThreadPC
  | checked : Bool → ThreadPC
  | finished : ℕ → ThreadPC
deriving DecidableEq, Repr

/-- Shared cache and load counter plus the program counters of two threads
each calling `get_detector` on the same key. -/
structure ConcState where
  cache : List (String × ℕ)
  loadCount : ℕ
  pc1 : ThreadPC
  pc2 : ThreadPC
deriving DecidableEq, Repr

/-- One atomic step of the `get_detector` body from the README: first the
membership test, then (only if the key was observed absent) the load-and-store,
then returning the handle.  There is no lock around the two steps. -/
def stepBody (key : String) (cache : List (String × ℕ)) (lc : ℕ) (pc : ThreadPC) :
    List (String × ℕ) × ℕ × ThreadPC :=
  match pc with
  | .ready => (cache, lc, .checked (findKey cache key).isNone)
  | .checked true => ((key, lc) :: cache, lc + 1, .finished lc)
  | .checked false => (cache, lc, .finished ((findKey cache key).getD 0))
  | .finished h => (cache, lc, .finished h)

/-- Interleaved step: `true` steps thread 1, `false` steps thread 2. -/
def stepConc (key : String) (s : ConcState) (t : Bool) : ConcState :=
  if t then
    match stepBody key s.cache s.loadCount s.pc1 with
    | (c, lc, pc) => ⟨c, lc, pc, s.pc2⟩
  else
    match stepBody key s.cache s.loadCount s.pc2 with
    | (c, lc, pc) => ⟨c, lc, s.pc1, pc⟩

/-- Run a schedule of interleaved thread steps. -/
def runConc (key : String) (s : ConcState) (sched : List Bool) : ConcState :=
  sched.foldl (stepConc key) s

/-- The per-frame results of a video that survived decoding and inference:
`none` marks a frame whose decode or inference failed and was skipped. -/
def validResults (xs : List (Option ClassificationResult)) :
    List ClassificationResult :=
  xs.filterMap id

/-- Modelled from the spec: the video pipeline after per-frame processing
(§4.3, §7; the backend video route is not in the snapshot).  Frames whose
decode or inference failed are skipped; if no valid frame remains the request
fails with `EmptyMedia`, otherwise the Aggregator runs on the valid frames. -/
def detect_video (xs : List (Option ClassificationResult)) :
    Except DetectError AggregatedVerdict :=
  match validResults xs with
  | [] => .error .EmptyMedia
  | r :: rs => .ok (aggregate (r :: rs))

/-- Final verdict structure returned to the caller (spec §6). -/
structure Verdict where
  is_fake : Bool
  confidence : ℚ
  model_used : String
deriving DecidableEq, Repr

/-- Modelled from the spec: the single-image path — the one frame's result is
passed through directly, probability scaled to [0,100]. -/
def detect_image_verdict (modelKey : String) (r : ClassificationResult) : Verdict :=
  ⟨r.label.isFake, 100 * r.prob, modelKey⟩

/-- Default model key of the frontend API layer
(`src/frontend/src/services/api.js`). -/
def defaultModelKey : String := "dima806"

/-- The JS default-parameter rule `modelKey = 'dima806'`: an omitted argument
resolves to the default key. -/
def resolveModelKey (mk : Option String) : String := mk.getD defaultModelKey

/-- Request body built by `detectionAPI.detectImage` in
`src/frontend/src/services/api.js`: form fields `image` and `model`. -/
def detectImageBody (imageFile : String) (mk : Option String) :
    List (String × String) :=
  [("image", imageFile), ("model", resolveModelKey mk)]

/-- Request body built by `detectionAPI.detectVideo` in
`src/frontend/src/services/api.js`: form fields `video` and `model`. -/
def detectVideoBody (videoFile : String) (mk : Option String) :
    List (String × String) :=
  [("video", videoFile), ("model", resolveModelKey mk)]

/-- Request body built by `detectionAPI.detectCamera` in
`src/frontend/src/services/api.js`: JSON fields `image` and `model`, nothing
else. -/
def detectCameraBody (base64Image : String) (mk : Option String) :
    List (String × String) :=
  [("image", base64Image), ("model", resolveModelKey mk)]

/-! ## Theorems -/

/-- When one label holds strictly more frames than the other, it wins the
vote. -/
theorem winningLabel_of_majority (rs : List ClassificationResult) (l : Label)
    (h : countLabel l.other rs < countLabel l rs) : winningLabel rs = l := by
  cases l with
  | fake =>
    simp only [Label.other] at h
    simp [winningLabel, h]
  | real =>
    simp only [Label.other] at h
    have h2 : ¬ countLabel .real rs < countLabel .fake rs := Nat.lt_asymm h
    simp [winningLabel, h, h2]

/-- C1: for every non-empty frame sequence in which one label holds strictly
more frames, the Aggregator returns that label, and the confidence is the
average probability of only the frames carrying the winning label, scaled to
[0,100]; on the input fake(0.9), fake(0.8), real(0.6) it returns fake with
confidence 85. -/
theorem C1_majority_vote :
    (∀ (rs : List ClassificationResult) (l : Label), rs ≠ [] →
      countLabel l.other rs < countLabel l rs →
      (aggregate rs).label = l ∧
        (aggregate rs).confidence = 100 * avgProb l rs) ∧
    (aggregate exampleFrames).label = .fake ∧
    (aggregate exampleFrames).confidence = 85 := by
  refine ⟨fun rs l _ h => ?_, ?_, ?_⟩
  · have hw : winningLabel rs = l := winningLabel_of_majority rs l h
    exact ⟨hw, by simp [aggregate, hw]⟩
  · simp +decide [aggregate, winningLabel, avgProb, countLabel, sumProb,
      exampleFrames, List.filter]
  · simp +decide [aggregate, winningLabel, avgProb, countLabel, sumProb,
      exampleFrames, List.filter]
    norm_num

/-- Witness for C1 at the spec's example input. -/
theorem C1_majority_vote_witness :
    exampleFrames ≠ [] ∧
    countLabel Label.fake.other exampleFrames < countLabel .fake exampleFrames ∧
    (aggregate exampleFrames).label = .fake ∧
    (aggregate exampleFrames).confidence = 100 * avgProb .fake exampleFrames := by
  have h1 : exampleFrames ≠ [] := by simp [exampleFrames]
  have h2 : countLabel Label.fake.other exampleFrames <
      countLabel .fake exampleFrames := by decide
  exact ⟨h1, h2, (C1_majority_vote.1 exampleFrames .fake h1 h2).1,
    (C1_majority_vote.1 exampleFrames .fake h1 h2).2⟩

/-- C2: on equal frame counts the label with the strictly higher average
probability wins; on equal counts and equal averages the Aggregator returns
fake; on the input fake(0.7), real(0.7) it returns fake. -/
theorem C2_tie_break :
    (∀ rs : List ClassificationResult, rs ≠ [] →
      countLabel .fake rs = countLabel .real rs →
      ((avgProb .real rs < avgProb .fake rs → (aggregate rs).label = .fake) ∧
       (avgProb .fake rs < avgProb .real rs → (aggregate rs).label = .real) ∧
       (avgProb .fake rs = avgProb .real rs → (aggregate rs).label = .fake))) ∧
    (aggregate tieFrames).label = .fake := by
  constructor
  · intro rs _ hc
    have h1 : ¬ countLabel .real rs < countLabel .fake rs := by omega
    have h2 : ¬ countLabel .fake rs < countLabel .real rs := by omega
    refine ⟨fun ha => ?_, fun ha => ?_, fun ha => ?_⟩
    · simp [aggregate, winningLabel, h1, h2, ha]
    · have ha2 : ¬ avgProb .real rs < avgProb .fake rs :=
        not_lt.mpr (le_of_lt ha)
      simp [aggregate, winningLabel, h1, h2, ha2, ha]
    · simp [aggregate, winningLabel, h1, h2, ha, lt_irrefl]
  · simp +decide [aggregate, winningLabel, avgProb, countLabel, sumProb,
      tieFrames, List.filter]

/-- Witness for C2 at the spec's tie-break input. -/
theorem C2_tie_break_witness :
    tieFrames ≠ [] ∧
    countLabel .fake tieFrames = countLabel .real tieFrames ∧
    avgProb .fake tieFrames = avgProb .real tieFrames ∧
    (aggregate tieFrames).label = .fake := by
  have h1 : tieFrames ≠ [] := by simp [tieFrames]
  have h2 : countLabel .fake tieFrames = countLabel .real tieFrames := by decide
  have h3 : avgProb .fake tieFrames = avgProb .real tieFrames := by
    simp +decide [avgProb, countLabel, sumProb, tieFrames, List.filter]
  exact ⟨h1, h2, h3, (C2_tie_break.1 tieFrames h1 h2).2.2 h3⟩

/-- A list no longer than `n` is its own `n` most recent elements. -/
theorem lastN_of_le (n : ℕ) (l : List α) (h : l.length ≤ n) : lastN n l = l := by
  simp [lastN, Nat.sub_eq_zero_of_le h]

/-- Dropping the head does not change the `n` most recent elements when the
tail already has at least `n` elements. -/
theorem lastN_cons (n : ℕ) (x : α) (l : List α) (h : n ≤ l.length) :
    lastN n (x :: l) = lastN n l := by
  simp only [lastN, List.length_cons]
  have he : l.length + 1 - n = (l.length - n) + 1 := by omega
  rw [he, List.drop_succ_cons]

/-- Pushing a sequence unfolds one push at a time. -/
theorem pushAll_cons (w : StabilizationWindow) (r : ClassificationResult)
    (rs : List ClassificationResult) :
    pushAll w (r :: rs) = pushAll (w.push r).1 rs := rfl

/-- Core invariant of the stabilization buffer: starting from any buffer
holding at most `N` entries, the window after a sequence of pushes holds
exactly the `N` most recent results. -/
theorem pushAll_buf (N : ℕ) (hN : 1 ≤ N) :
    ∀ (rs b : List ClassificationResult), b.length ≤ N →
      (pushAll ⟨N, b⟩ rs).buf = lastN N (b ++ rs) := by
  intro rs
  induction rs with
  | nil =>
    intro b hb
    simp [pushAll, lastN_of_le N b hb]
  | cons r rs ih =>
    intro b hb
    rw [pushAll_cons]
    by_cases hfull : N ≤ b.length
    · have hbN : b.length = N := le_antisymm hb hfull
      have hpush : (StabilizationWindow.push ⟨N, b⟩ r).1 =
          ⟨N, b.drop 1 ++ [r]⟩ := by
        simp [StabilizationWindow.push, hfull]
      rw [hpush]
      have hlen : (b.drop 1 ++ [r]).length ≤ N := by
        simp [List.length_drop]
        omega
      rw [ih _ hlen]
      cases b with
      | nil =>
        simp at hbN
        omega
      | cons x t =>
        simp only [List.drop_succ_cons, List.drop_zero, List.cons_append]
        rw [List.append_assoc, List.singleton_append, lastN_cons]
        simp only [List.length_cons] at hbN
        simp [List.length_append]
        omega
    · push_neg at hfull
      have hpush : (StabilizationWindow.push ⟨N, b⟩ r).1 = ⟨N, b ++ [r]⟩ := by
        simp [StabilizationWindow.push, not_le.mpr hfull]
      rw [hpush]
      have hlen : (b ++ [r]).length ≤ N := by
        simp
        omega
      rw [ih _ hlen, List.append_assoc, List.singleton_append]

/-- C3: a push into a full capacity-`N` window evicts the oldest entry before
appending, a push into a non-full window only appends, the window after `n`
pushes holds exactly the `min(n, N)` most recent results (at least 1 once a
push happened), the verdict of a push is the vote over exactly the current
window, and after 6 pushes into a capacity-5 window the buffer is the 5 most
recent results, whose vote (real) differs from the vote over all six frames
(fake). -/
theorem C3_stabilization_window :
    (∀ (w : StabilizationWindow) (r : ClassificationResult),
      w.capacity ≤ w.buf.length → (w.push r).1.buf = w.buf.drop 1 ++ [r]) ∧
    (∀ (w : StabilizationWindow) (r : ClassificationResult),
      w.buf.length < w.capacity → (w.push r).1.buf = w.buf ++ [r]) ∧
    (∀ (N : ℕ) (rs : List ClassificationResult), 1 ≤ N → rs ≠ [] →
      (pushAll ⟨N, []⟩ rs).buf = lastN N rs ∧
      (pushAll ⟨N, []⟩ rs).buf.length = min rs.length N ∧
      1 ≤ (pushAll ⟨N, []⟩ rs).buf.length) ∧
    (∀ (w : StabilizationWindow) (r : ClassificationResult),
      (w.push r).2 = ⟨winningLabel (w.push r).1.buf,
        100 * avgProb (winningLabel (w.push r).1.buf) (w.push r).1.buf⟩) ∧
    (pushAll ⟨5, []⟩ camFrames).buf = camFrames.drop 1 ∧
    ((pushAll ⟨5, []⟩ (camFrames.take 5)).push ⟨.fake, 7/10⟩).2.label = .real ∧
    (aggregate camFrames).label = .fake := by
  refine ⟨fun w r h => ?_, fun w r h => ?_, fun N rs hN hne => ?_, fun w r => rfl,
    ?_, ?_, ?_⟩
  · simp [StabilizationWindow.push, h]
  · simp [StabilizationWindow.push, not_le.mpr h]
  · have hbuf : (pushAll ⟨N, []⟩ rs).buf = lastN N rs := by
      have hb := pushAll_buf N hN rs [] (by simp)
      simpa using hb
    refine ⟨hbuf, ?_, ?_⟩
    · rw [hbuf]
      simp only [lastN, List.length_drop]
      omega
    · rw [hbuf]
      simp only [lastN, List.length_drop]
      have : 1 ≤ rs.length := List.length_pos.mpr hne
      omega
  · rfl
  · simp +decide [pushAll, StabilizationWindow.push, camFrames, winningLabel,
      avgProb, countLabel, sumProb, List.filter]
  · simp +decide [aggregate, camFrames, winningLabel, avgProb, countLabel,
      sumProb, List.filter]
    norm_num

/-- Witness for C3: six pushes into a capacity-5 window keep the 5 most recent
results. -/
theorem C3_stabilization_window_witness :
    (1:ℕ) ≤ 5 ∧ camFrames ≠ [] ∧
    (pushAll ⟨5, []⟩ camFrames).buf = lastN 5 camFrames ∧
    (pushAll ⟨5, []⟩ camFrames).buf.length = min camFrames.length 5 := by
  have h1 : (1:ℕ) ≤ 5 := by decide
  have h2 : camFrames ≠ [] := by simp [camFrames]
  obtain ⟨ha, hb, _⟩ := C3_stabilization_window.2.2.1 5 camFrames h1 h2
  exact ⟨h1, h2, ha, hb⟩

/-- A cached key is returned as-is, with the state untouched. -/
theorem get_detector_cached (key : String) (s : RegistryState) (m : ℕ)
    (h : findKey s.cache key = some m) : get_detector key s = (m, s) := by
  simp [get_detector, h]

/-- After any call, the key just requested is cached with the returned
handle. -/
theorem get_detector_loads_key (key : String) (s : RegistryState) :
    findKey (get_detector key s).2.cache key = some (get_detector key s).1 := by
  cases h : findKey s.cache key with
  | some m => simp [get_detector, h]
  | none => simp [get_detector, h, findKey]

/-- A call for any key preserves every entry already in the cache. -/
theorem get_detector_preserves (key k : String) (s : RegistryState) (m : ℕ)
    (h : findKey s.cache k = some m) :
    findKey (get_detector key s).2.cache k = some m := by
  cases hc : findKey s.cache key with
  | some m2 => simp [get_detector, hc, h]
  | none =>
    have hkk : k ≠ key := by
      intro he
      rw [he, hc] at h
      exact Option.noConfusion h
    simp [get_detector, hc, findKey, hkk, h]

/-- Any sequence of calls preserves every entry already in the cache. -/
theorem runCalls_preserves (keys : List String) :
    ∀ (s : RegistryState) (k : String) (m : ℕ),
      findKey s.cache k = some m →
      findKey (runCalls s keys).cache k = some m := by
  induction keys with
  | nil =>
    intro s k m h
    simpa [runCalls] using h
  | cons key keys ih =>
    intro s k m h
    exact ih _ k m (get_detector_preserves key k s m h)

/-- C4: a second `get_detector` call for the same key returns the same handle
with the whole registry state unchanged (so no new load happens), and a loaded
model is never removed or replaced by any later sequence of calls: its cache
entry survives unchanged and a later call for its key returns the original
handle without touching the state. -/
theorem C4_resolve_idempotent :
    (∀ (key : String) (s : RegistryState),
      (get_detector key (get_detector key s).2).1 = (get_detector key s).1 ∧
      (get_detector key (get_detector key s).2).2 = (get_detector key s).2) ∧
    (∀ (keys : List String) (s : RegistryState) (k : String) (m : ℕ),
      findKey s.cache k = some m →
      findKey (runCalls s keys).cache k = some m ∧
      (get_detector k (runCalls s keys)).1 = m ∧
      (get_detector k (runCalls s keys)).2 = runCalls s keys) := by
  constructor
  · intro key s
    have hl := get_detector_loads_key key s
    rw [get_detector_cached key (get_detector key s).2 (get_detector key s).1 hl]
    exact ⟨rfl, rfl⟩
  · intro keys s k m h
    have hp := runCalls_preserves keys s k m h
    rw [get_detector_cached k (runCalls s keys) m hp]
    exact ⟨hp, rfl, rfl⟩

/-- Witness for C4: a cold load of the default key followed by unrelated calls
keeps the loaded handle intact. -/
theorem C4_resolve_idempotent_witness :
    (get_detector "dima806" (get_detector "dima806" ⟨[], 0⟩).2).1 =
      (get_detector "dima806" ⟨[], 0⟩).1 ∧
    findKey (⟨[("dima806", 0)], 1⟩ : RegistryState).cache "dima806" = some 0 ∧
    findKey (runCalls ⟨[("dima806", 0)], 1⟩ ["deepfake", "dima806"]).cache
      "dima806" = some 0 ∧
    (get_detector "dima806"
      (runCalls ⟨[("dima806", 0)], 1⟩ ["deepfake", "dima806"])).1 = 0 := by
  have h : findKey (⟨[("dima806", 0)], 1⟩ : RegistryState).cache "dima806" =
      some 0 := by decide
  obtain ⟨h1, h2, _⟩ :=
    C4_resolve_idempotent.2 ["deepfake", "dima806"] ⟨[("dima806", 0)], 1⟩
      "dima806" 0 h
  exact ⟨(C4_resolve_idempotent.1 "dima806" ⟨[], 0⟩).1, h, h1, h2⟩

/-- C5 counterexample: interleaving two threads through the unlocked
check-then-store body of `get_detector` on the same cold key performs two
loads, and the two callers end up holding two different handles. -/
theorem C5_counterexample :
    (runConc "dima806" ⟨[], 0, .ready, .ready⟩
      [true, false, true, false]).loadCount = 2 ∧
    (runConc "dima806" ⟨[], 0, .ready, .ready⟩
      [true, false, true, false]).pc1 = .finished 0 ∧
    (runConc "dima806" ⟨[], 0, .ready, .ready⟩
      [true, false, true, false]).pc2 = .finished 1 := by
  decide

/-- A sequence of repeated calls for an already-cached key leaves the registry
state unchanged. -/
theorem runCalls_replicate_cached (n : ℕ) (s : RegistryState) (key : String)
    (m : ℕ) (h : findKey s.cache key = some m) :
    runCalls s (List.replicate n key) = s := by
  induction n with
  | zero => rfl
  | succ n ih =>
    show runCalls (get_detector key s).2 (List.replicate n key) = s
    rw [get_detector_cached key s m h]
    exact ih

/-- C5 (amended): sequential `get_detector` calls on a cold key perform
exactly one load — the load counter rises by exactly one over any number of
repeated calls — and every one of the calls returns the same handle. -/
theorem C5_sequential_single_load (s : RegistryState) (key : String) (n k : ℕ)
    (h : findKey s.cache key = none) :
    (runCalls s (List.replicate (n + 1) key)).loadCount = s.loadCount + 1 ∧
    (get_detector key (runCalls s (List.replicate k key))).1 = s.loadCount := by
  have hs1 : get_detector key s =
      (s.loadCount, ⟨(key, s.loadCount) :: s.cache, s.loadCount + 1⟩) := by
    simp [get_detector, h]
  have hkey : findKey
      ((⟨(key, s.loadCount) :: s.cache, s.loadCount + 1⟩ : RegistryState)).cache
      key = some s.loadCount := by
    simp [findKey]
  constructor
  · show (runCalls (get_detector key s).2 (List.replicate n key)).loadCount =
      s.loadCount + 1
    rw [hs1, runCalls_replicate_cached n _ key s.loadCount hkey]
  · cases k with
    | zero =>
      show (get_detector key s).1 = s.loadCount
      rw [hs1]
    | succ k =>
      show (get_detector key
        (runCalls (get_detector key s).2 (List.replicate k key))).1 =
          s.loadCount
      rw [hs1, runCalls_replicate_cached k _ key s.loadCount hkey,
        get_detector_cached key _ s.loadCount hkey]

/-- Witness for C5 (amended): three sequential calls on the cold default key
load once and all return handle 0. -/
theorem C5_sequential_single_load_witness :
    findKey (⟨[], 0⟩ : RegistryState).cache "dima806" = none ∧
    (runCalls ⟨[], 0⟩ (List.replicate 3 "dima806")).loadCount = 1 ∧
    (get_detector "dima806"
      (runCalls ⟨[], 0⟩ (List.replicate 2 "dima806"))).1 = 0 := by
  have h : findKey (⟨[], 0⟩ : RegistryState).cache "dima806" = none := rfl
  obtain ⟨h1, h2⟩ := C5_sequential_single_load ⟨[], 0⟩ "dima806" 2 2 h
  exact ⟨h, h1, h2⟩

/-- C6: a failed load on a cold key surfaces `ModelLoadError`, leaves the
registry state (cache and load counter) exactly as it was, and the next call
for the same key performs a fresh load attempt, succeeding if the load now
succeeds. -/
theorem C6_load_failure_not_cached (s : RegistryState) (key : String)
    (h : findKey s.cache key = none) :
    (get_detector_f key false s).1 = .error .ModelLoadError ∧
    (get_detector_f key false s).2 = s ∧
    (get_detector_f key true (get_detector_f key false s).2).1 =
      .ok s.loadCount ∧
    (get_detector_f key true (get_detector_f key false s).2).2.loadCount =
      s.loadCount + 1 := by
  have h1 : get_detector_f key false s = (.error .ModelLoadError, s) := by
    simp [get_detector_f, h]
  refine ⟨by rw [h1], by rw [h1], ?_, ?_⟩
  · rw [h1]
    simp [get_detector_f, h]
  · rw [h1]
    simp [get_detector_f, h]

/-- Witness for C6 on the cold default key. -/
theorem C6_load_failure_not_cached_witness :
    findKey (⟨[], 0⟩ : RegistryState).cache "dima806" = none ∧
    (get_detector_f "dima806" false ⟨[], 0⟩).1 = .error .ModelLoadError ∧
    (get_detector_f "dima806" false ⟨[], 0⟩).2 = ⟨[], 0⟩ ∧
    (get_detector_f "dima806" true
      (get_detector_f "dima806" false ⟨[], 0⟩).2).1 = .ok 0 := by
  have h : findKey (⟨[], 0⟩ : RegistryState).cache "dima806" = none := rfl
  obtain ⟨h1, h2, h3, _⟩ := C6_load_failure_not_cached ⟨[], 0⟩ "dima806" h
  exact ⟨h, h1, h2, h3⟩

/-- A successful video result is exactly the aggregation of the surviving
valid frames, which are then non-empty. -/
theorem detect_video_ok (xs : List (Option ClassificationResult))
    (v : AggregatedVerdict) (h : detect_video xs = .ok v) :
    validResults xs ≠ [] ∧ v = aggregate (validResults xs) := by
  cases hv : validResults xs with
  | nil =>
    rw [detect_video, hv] at h
    exact absurd h (by simp)
  | cons r rs =>
    rw [detect_video, hv] at h
    simp at h
    exact ⟨by simp [hv], h.symm⟩

/-- C7: a video with zero surviving frames fails with `EmptyMedia` (in
particular the empty extraction does), a failed frame anywhere in the stream
is skipped — the result is the same as if that frame were absent — and every
successful verdict is the aggregation over exactly the surviving valid frames,
never a partial or fabricated one. -/
theorem C7_empty_media_and_skip :
    (∀ (pre post : List (Option ClassificationResult)),
      detect_video (pre ++ none :: post) = detect_video (pre ++ post)) ∧
    detect_video [] = .error .EmptyMedia ∧
    (∀ xs : List (Option ClassificationResult),
      validResults xs = [] → detect_video xs = .error .EmptyMedia) ∧
    (∀ (xs : List (Option ClassificationResult)) (v : AggregatedVerdict),
      detect_video xs = .ok v →
      validResults xs ≠ [] ∧ v = aggregate (validResults xs)) := by
  refine ⟨fun pre post => ?_, rfl, fun xs h => ?_, detect_video_ok⟩
  · have he : validResults (pre ++ none :: post) = validResults (pre ++ post) := by
      simp [validResults]
    rw [detect_video, detect_video, he]
  · rw [detect_video, h]

/-- Witness for C7: skipping a bad middle frame, an all-bad video failing with
`EmptyMedia`, and a successful verdict being the aggregate of the valid
frames. -/
theorem C7_empty_media_and_skip_witness :
    detect_video [some ⟨.fake, 9/10⟩, none, some ⟨.real, 6/10⟩] =
      detect_video [some ⟨.fake, 9/10⟩, some ⟨.real, 6/10⟩] ∧
    validResults [none, none] = [] ∧
    detect_video [none, none] = .error .EmptyMedia ∧
    detect_video [some ⟨.fake, 9/10⟩, none, some ⟨.real, 6/10⟩] =
      .ok (aggregate [⟨.fake, 9/10⟩, ⟨.real, 6/10⟩]) ∧
    validResults [some ⟨.fake, 9/10⟩, none, some ⟨.real, 6/10⟩] ≠ [] := by
  have h1 := C7_empty_media_and_skip.1 [some ⟨.fake, 9/10⟩] [some ⟨.real, 6/10⟩]
  have h2 : validResults [none, none] = ([] : List ClassificationResult) := rfl
  have h3 := C7_empty_media_and_skip.2.2.1 [none, none] h2
  have h4 : detect_video [some ⟨.fake, 9/10⟩, none, some ⟨.real, 6/10⟩] =
      .ok (aggregate [⟨.fake, 9/10⟩, ⟨.real, 6/10⟩]) := rfl
  have h5 := (C7_empty_media_and_skip.2.2.2
    [some ⟨.fake, 9/10⟩, none, some ⟨.real, 6/10⟩]
    (aggregate [⟨.fake, 9/10⟩, ⟨.real, 6/10⟩]) h4).1
  exact ⟨h1, h2, h3, h4, h5⟩

/-- C8 counterexample: the camera detection request of the frontend API layer
carries exactly the fields `image` and `model`; there is no `session_id`
field. -/
theorem C8_counterexample :
    (detectCameraBody "frame" none).map Prod.fst = ["image", "model"] ∧
    ¬ ("session_id" ∈ (detectCameraBody "frame" none).map Prod.fst) := by
  exact ⟨rfl, by decide⟩

/-- C8 (amended): for every camera frame and every (present or omitted) model
key, the camera detection request carries exactly the fields `image` and
`model` and never a `session_id`, so no per-session stabilization window can
be selected from the request. -/
theorem C8_no_session_id (img : String) (mk : Option String) :
    (detectCameraBody img mk).map Prod.fst = ["image", "model"] ∧
    ¬ ("session_id" ∈ (detectCameraBody img mk).map Prod.fst) := by
  have hk : (detectCameraBody img mk).map Prod.fst = ["image", "model"] := rfl
  refine ⟨hk, ?_⟩
  rw [hk]
  decide

/-- Probability sums over one label are bounded by the matching frame
count. -/
theorem sumProb_bounds (l : Label) :
    ∀ rs : List ClassificationResult,
      (∀ x ∈ rs, 0 ≤ x.prob ∧ x.prob ≤ 1) →
      0 ≤ sumProb l rs ∧ sumProb l rs ≤ (countLabel l rs : ℚ) := by
  intro rs
  induction rs with
  | nil =>
    intro _
    simp [sumProb, countLabel]
  | cons r rs ih =>
    intro h
    have hr := h r (List.mem_cons_self r rs)
    have ih2 := ih (fun x hx => h x (List.mem_cons_of_mem r hx))
    by_cases hl : r.label = l
    · have e1 : sumProb l (r :: rs) = r.prob + sumProb l rs := by
        simp [sumProb, List.filter_cons, hl]
      have e2 : countLabel l (r :: rs) = countLabel l rs + 1 := by
        simp [countLabel, List.filter_cons, hl]
      rw [e1, e2]
      push_cast
      constructor
      · linarith [ih2.1, hr.1]
      · linarith [ih2.2, hr.2]
    · have e1 : sumProb l (r :: rs) = sumProb l rs := by
        simp [sumProb, List.filter_cons, hl]
      have e2 : countLabel l (r :: rs) = countLabel l rs := by
        simp [countLabel, List.filter_cons, hl]
      rw [e1, e2]
      exact ih2

/-- The average probability of any label over frames with probabilities in
[0,1] lies in [0,1]. -/
theorem avgProb_bounds (l : Label) (rs : List ClassificationResult)
    (h : ∀ x ∈ rs, 0 ≤ x.prob ∧ x.prob ≤ 1) :
    0 ≤ avgProb l rs ∧ avgProb l rs ≤ 1 := by
  obtain ⟨h0, h1⟩ := sumProb_bounds l rs h
  by_cases hc : countLabel l rs = 0
  · simp [avgProb, hc]
  · have hcpos : (0:ℚ) < (countLabel l rs : ℚ) :=
      Nat.cast_pos.mpr (Nat.pos_of_ne_zero hc)
    rw [avgProb, if_neg hc]
    exact ⟨div_nonneg h0 (le_of_lt hcpos), (div_le_one hcpos).mpr h1⟩

/-- The aggregated confidence over frames with probabilities in [0,1] lies in
[0,100]. -/
theorem aggregate_confidence_bounds (rs : List ClassificationResult)
    (h : ∀ x ∈ rs, 0 ≤ x.prob ∧ x.prob ≤ 1) :
    0 ≤ (aggregate rs).confidence ∧ (aggregate rs).confidence ≤ 100 := by
  obtain ⟨h0, h1⟩ := avgProb_bounds (winningLabel rs) rs h
  constructor
  · simp only [aggregate]
    linarith
  · simp only [aggregate]
    linarith

/-- C9: on every successful detection — single image, aggregated video, or
stabilized camera push — the confidence lies in the closed interval [0,100]
and `is_fake` is one of exactly the two boolean values; the label type itself
has exactly the two outcomes real and fake. -/
theorem C9_verdict_bounds :
    (∀ (mk : String) (r : ClassificationResult), 0 ≤ r.prob → r.prob ≤ 1 →
      0 ≤ (detect_image_verdict mk r).confidence ∧
      (detect_image_verdict mk r).confidence ≤ 100 ∧
      ((detect_image_verdict mk r).is_fake = true ∨
        (detect_image_verdict mk r).is_fake = false)) ∧
    (∀ (xs : List (Option ClassificationResult)) (v : AggregatedVerdict),
      (∀ r : ClassificationResult, some r ∈ xs → 0 ≤ r.prob ∧ r.prob ≤ 1) →
      detect_video xs = .ok v →
      0 ≤ v.confidence ∧ v.confidence ≤ 100) ∧
    (∀ (w : StabilizationWindow) (r : ClassificationResult),
      (∀ x ∈ w.buf, 0 ≤ x.prob ∧ x.prob ≤ 1) → 0 ≤ r.prob → r.prob ≤ 1 →
      0 ≤ (w.push r).2.confidence ∧ (w.push r).2.confidence ≤ 100) ∧
    (∀ l : Label, l = .real ∨ l = .fake) := by
  refine ⟨fun mk r h0 h1 => ?_, fun xs v hb hok => ?_, fun w r hb h0 h1 => ?_,
    fun l => ?_⟩
  · refine ⟨?_, ?_, Bool.eq_false_or_eq_true _⟩
    · simp only [detect_image_verdict]
      linarith
    · simp only [detect_image_verdict]
      linarith
  · obtain ⟨_, hv⟩ := detect_video_ok xs v hok
    rw [hv]
    refine aggregate_confidence_bounds _ (fun x hx => ?_)
    have hmem : some x ∈ xs := by
      rcases List.mem_filterMap.mp hx with ⟨a, ha, hae⟩
      rwa [show a = some x from hae] at ha
    exact hb x hmem
  · have hmem : ∀ x ∈ (if w.capacity ≤ w.buf.length then w.buf.drop 1
        else w.buf) ++ [r], 0 ≤ x.prob ∧ x.prob ≤ 1 := by
      intro x hx
      rcases List.mem_append.mp hx with hx | hx
      · split at hx
        · exact hb x (List.mem_of_mem_drop hx)
        · exact hb x hx
      · rw [List.mem_singleton.mp hx]
        exact ⟨h0, h1⟩
    have := avgProb_bounds
      (winningLabel ((if w.capacity ≤ w.buf.length then w.buf.drop 1
        else w.buf) ++ [r]))
      ((if w.capacity ≤ w.buf.length then w.buf.drop 1 else w.buf) ++ [r]) hmem
    constructor
    · simp only [StabilizationWindow.push]
      linarith [this.1]
    · simp only [StabilizationWindow.push]
      linarith [this.2]
  · cases l
    · exact Or.inl rfl
    · exact Or.inr rfl

/-- Witness for C9 at concrete inputs. -/
theorem C9_verdict_bounds_witness :
    (0 ≤ (detect_image_verdict "dima806" ⟨.fake, 9/10⟩).confidence ∧
      (detect_image_verdict "dima806" ⟨.fake, 9/10⟩).confidence ≤ 100) ∧
    (∀ v : AggregatedVerdict,
      detect_video [some ⟨.fake, 9/10⟩, some ⟨.real, 6/10⟩] = .ok v →
      0 ≤ v.confidence ∧ v.confidence ≤ 100) ∧
    (0 ≤ ((⟨5, []⟩ : StabilizationWindow).push ⟨.fake, 9/10⟩).2.confidence ∧
      ((⟨5, []⟩ : StabilizationWindow).push ⟨.fake, 9/10⟩).2.confidence ≤ 100) := by
  have hp : (0:ℚ) ≤ 9/10 := by norm_num
  have hp2 : (9:ℚ)/10 ≤ 1 := by norm_num
  refine ⟨?_, fun v hv => ?_, ?_⟩
  · obtain ⟨a, b, _⟩ := C9_verdict_bounds.1 "dima806" ⟨.fake, 9/10⟩ hp hp2
    exact ⟨a, b⟩
  · refine C9_verdict_bounds.2.1 [some ⟨.fake, 9/10⟩, some ⟨.real, 6/10⟩] v
      (fun r hr => ?_) hv
    have hmem : some r = some (⟨.fake, 9/10⟩ : ClassificationResult) ∨
        some r = some (⟨.real, 6/10⟩ : ClassificationResult) := by
      simpa using hr
    rcases hmem with he | he
    · rw [Option.some.inj he]
      constructor <;> norm_num
    · rw [Option.some.inj he]
      constructor <;> norm_num
  · exact C9_verdict_bounds.2.2.1 ⟨5, []⟩ ⟨.fake, 9/10⟩ (by simp) hp hp2

/-- C10: every frontend detection request — image, video, camera — carries a
`model` field, and an omitted model-key argument resolves to the default key
`dima806`. -/
theorem C10_model_key_always_sent (f : String) (mk : Option String) :
    ("model", resolveModelKey mk) ∈ detectImageBody f mk ∧
    ("model", resolveModelKey mk) ∈ detectVideoBody f mk ∧
    ("model", resolveModelKey mk) ∈ detectCameraBody f mk ∧
    resolveModelKey none = "dima806" := by
  refine ⟨?_, ?_, ?_, rfl⟩ <;>
    simp [detectImageBody, detectVideoBody, detectCameraBody]

end FYP
